import Mathlib

/-!
Verification of the code-signing utility primitives (csutilities.cpp):
certificate hashing, file-range hashing, the certificate-extension probe,
and the Copyfile wrapper.  The utilities themselves are translated from
src/lib/csutilities.cpp; the host facilities they call (certificate
library, file descriptors, the incremental SHA-1 primitive and the
copyfile facility) are external collaborators and are modelled from the
specification's description of their interfaces (spec §6).
-/

namespace Security

namespace CodeSigning

/-- A byte, modelled as a natural number (values 0..255 in practice; no
operation here depends on the bound). -/
abbrev Byte := Nat

/-- An OID in its canonical DER-encoded form; equality is byte-equality
of that encoding. -/
abbrev Oid := List Byte

/-- An X.509 extension record as seen by the slow path: only the OID
field (extnId) is ever inspected; the raw value travels along. -/
structure CSSM_X509_EXTENSION where
  extnId : Oid
  extnValue : List Byte
deriving DecidableEq

/-- A certificate handle: its DER body plus its extension list. -/
structure Cert where
  derBody : List Byte
  extensions : List CSSM_X509_EXTENSION

/-- Modelled from the spec: the host certificate library (CL).  Older
host libraries only parse a built-in OID set; `recognized` says which
OIDs the library natively parses.  Extensions outside that set are
bundled into the opaque unrecognized-extension bag. -/
structure CL where
  recognized : Oid → Bool

/-- Status codes surfaced by the host certificate library that the probe
distinguishes: success, the specific unknown-tag sentinel (the OID is
not recognized by the CL, per the source comment), and the no-field-values
error a recognized but absent field produces. -/
inductive OSStatus where
  | noErr
  | unknownTag
  | noFieldValues
deriving DecidableEq

/-- Does the certificate carry at least one extension whose OID
byte-equals the target (the comparison the slow path performs)? -/
def hasExtensionWithOid (cert : Cert) (oid : Oid) : Bool :=
  cert.extensions.any (fun ext => oid == ext.extnId)

/-- Modelled from the spec: copy-first-field of the host certificate
library (§6, §4.3).  It succeeds when the library recognizes the OID and
the certificate carries such a field; it reports the unknown-tag
sentinel exactly when the OID is outside the library's built-in set (the
source's own comment reads "oid not recognized by CL"); a recognized OID
with no matching field yields the distinct no-field-values error. -/
def SecCertificateCopyFirstFieldValue (cl : CL) (cert : Cert) (oid : Oid) : OSStatus :=
  if cl.recognized oid then
    if hasExtensionWithOid cert oid then OSStatus.noErr else OSStatus.noFieldValues
  else OSStatus.unknownTag

/-- The extensions the host library bundles into the opaque
unrecognized-extension bag: those whose OID it does not recognize. -/
def unrecognizedExtensionValues (cl : CL) (cert : Cert) : List CSSM_X509_EXTENSION :=
  cert.extensions.filter (fun ext => !cl.recognized ext.extnId)

/-- Modelled from the spec: copy-all-fields for the generic
unrecognized-extensions bag (§4.3).  The request fails (returns no
array) exactly when the certificate carries no unrecognized extensions
at all. -/
def SecCertificateCopyFieldValues (cl : CL) (cert : Cert) :
    Option (List CSSM_X509_EXTENSION) :=
  let vs := unrecognizedExtensionValues cl cert
  if vs.isEmpty then none else some vs

/-- Release calls the probe makes on borrowed host-library resources. -/
inductive HostEvent where
  | releaseFirstFieldValue
  | releaseFieldValues
deriving DecidableEq

/-- Outcome of the probe: a boolean answer, or a propagated host-library
error (MacOSError::throwMe carrying the status code). -/
inductive ProbeResult where
  | ok (found : Bool)
  | err (rc : OSStatus)
deriving DecidableEq

/-- Slow path of certificateHasField (source lines 110-124): query the
bag of unrecognized extensions; a failed query means no unrecognized
extensions, answer false; otherwise scan the array for a byte-equal OID,
then release the array whether or not a match was found. -/
def certificateHasFieldSlow (cl : CL) (cert : Cert) (oid : Oid) :
    ProbeResult × List HostEvent :=
  match SecCertificateCopyFieldValues cl cert with
  | none => (ProbeResult.ok false, [])
  | some values =>
      (ProbeResult.ok (values.any (fun ext => oid == ext.extnId)),
       [HostEvent.releaseFieldValues])

/-- certificateHasField (source lines 96-125), instrumented with the
release calls it performs.  Fast path: ask for the first field value by
OID; success releases the borrowed value and answers true; the
unknown-tag sentinel falls through to the slow path; any other status is
thrown to the caller. -/
def certificateHasFieldTrace (cl : CL) (cert : Cert) (oid : Oid) :
    ProbeResult × List HostEvent :=
  match SecCertificateCopyFirstFieldValue cl cert oid with
  | OSStatus.noErr => (ProbeResult.ok true, [HostEvent.releaseFirstFieldValue])
  | OSStatus.unknownTag => certificateHasFieldSlow cl cert oid
  | rc => (ProbeResult.err rc, [])

/-- The probe's result, forgetting the release trace. -/
def certificateHasField (cl : CL) (cert : Cert) (oid : Oid) : ProbeResult :=
  (certificateHasFieldTrace cl cert oid).1

/-- Modelled from the spec: the incremental hash state of the host
cryptographic primitive (§6), recorded as the sequence of bytes fed to
it.  Finalizing applies the (abstract) digest function to the fed
bytes. -/
structure SHA1 where
  fed : List Byte
deriving DecidableEq

/-- A fresh hasher has been fed nothing. -/
def SHA1.init : SHA1 := ⟨[]⟩

/-- Appending bytes to the incremental hash state. -/
def SHA1.update (h : SHA1) (bytes : List Byte) : SHA1 :=
  ⟨h.fed ++ bytes⟩

/-- Finalizing: the digest of everything fed, under the host's digest
function (kept abstract; the spec fixes its output width at 20). -/
def SHA1.finish (digestFn : List Byte → List Byte) (h : SHA1) : List Byte :=
  digestFn h.fed

/-- hashOfCertificate over raw DER data (source lines 40-45): a fresh
hasher is fed exactly the given bytes and finalized. -/
def hashOfCertificate (digestFn : List Byte → List Byte) (certData : List Byte) :
    List Byte :=
  let hasher := SHA1.init
  let hasher := hasher.update certData
  hasher.finish digestFn

/-- Modelled from the spec: get-DER-bytes of the host certificate
library (§6) yields the certificate's DER body. -/
def SecCertificateGetData (cert : Cert) : List Byte :=
  cert.derBody

/-- hashOfCertificate over a certificate handle (source lines 51-57):
obtains the DER body and delegates to the byte-range form. -/
def hashOfCertificateRef (digestFn : List Byte → List Byte) (cert : Cert) :
    List Byte :=
  hashOfCertificate digestFn (SecCertificateGetData cert)

/-- Modelled from the spec: a file descriptor over a regular file — the
byte content, the positional cursor, and the at-end indicator the read
primitive maintains. -/
structure FileDesc where
  content : List Byte
  pos : Nat
  mAtEnd : Bool
deriving DecidableEq

/-- Modelled from the spec: reading up to n bytes from the current
position of a regular file.  It returns the bytes actually read and the
advanced descriptor; the at-end indicator is raised exactly when a read
returns no bytes (the cursor already sat at end-of-file). -/
def FileDesc.read (fd : FileDesc) (n : Nat) : List Byte × FileDesc :=
  let bytes := (fd.content.drop fd.pos).take n
  (bytes, { content := fd.content, pos := fd.pos + bytes.length,
            mAtEnd := bytes.length == 0 })

/-- The at-end indicator, as fd.atEnd() reads it. -/
def FileDesc.atEnd (fd : FileDesc) : Bool := fd.mAtEnd

/-- The read size of one loop iteration of hashFileData (source lines
76-78): the 4096-byte buffer, clamped to the remaining limit when a
limit is in effect. -/
def readSize (limit : Nat) : Nat :=
  if limit ≠ 0 ∧ limit < 4096 then limit else 4096

/-- The loop of hashFileData (source lines 75-86), with the running
total as accumulator.  Each iteration reads, adds the byte count to the
total, breaks if the descriptor signals end-of-file, feeds the buffer to
the hasher, and breaks when a nonzero limit is exhausted (the limit is
decremented by the bytes actually read; Nat subtraction also leaves a
zero limit at zero, matching the source which only decrements a nonzero
limit).  Returns the total, the hasher and the final descriptor. -/
def hashFileDataLoop (fd : FileDesc) (hasher : SHA1) (limit total : Nat) :
    Nat × SHA1 × FileDesc :=
  let size := readSize limit
  let buffer := (fd.read size).1
  let fd' := (fd.read size).2
  let got := buffer.length
  let total' := total + got
  if _h : fd'.atEnd then (total', hasher, fd')
  else
    let hasher' := hasher.update buffer
    if limit ≠ 0 ∧ limit - got = 0 then (total', hasher', fd')
    else hashFileDataLoop fd' hasher' (limit - got) total'
termination_by fd.content.length - fd.pos
decreasing_by
  simp only [FileDesc.read, FileDesc.atEnd, List.length_take, List.length_drop,
    beq_iff_eq, fd', buffer, got] at *
  omega

/-- hashFileData over a descriptor (source lines 71-88): run the loop
from a zero total. -/
def hashFileData (fd : FileDesc) (hasher : SHA1) (limit : Nat) :
    Nat × SHA1 × FileDesc :=
  hashFileDataLoop fd hasher limit 0

/-- hashFileData over a path (source lines 65-69): open the file
(cursor at position 0, at-end indicator clear) and delegate with no
limit. -/
def hashFileDataOfPath (content : List Byte) (hasher : SHA1) :
    Nat × SHA1 × FileDesc :=
  hashFileData ⟨content, 0, false⟩ hasher 0

/-- The number of bytes one hashFileData run consumes from the current
position: the whole remainder of the file when no limit is in effect,
and at most the limit otherwise (the spec's min(len(F), L) with L = 0
meaning no limit). -/
def consumedBytes (fd : FileDesc) (limit : Nat) : Nat :=
  if limit = 0 then fd.content.length - fd.pos
  else min (fd.content.length - fd.pos) limit

/-- Modelled from the spec: the host copyfile facility's state — the
recorded flag/value bindings (§6).  Values stand for the pointer-sized
words the facility records. -/
structure CopyState where
  bindings : List (Nat × Int)
deriving DecidableEq

/-- Modelled from the spec: the facility's set-flag entry point records
the value under the flag and reports success (return code 0). -/
def copyfile_state_set (st : CopyState) (flag : Nat) (value : Int) :
    CopyState × Int :=
  (⟨(flag, value) :: st.bindings⟩, 0)

/-- Modelled from the spec: the facility's get-flag entry point looks up
the value recorded under the flag. -/
def copyfile_state_get (st : CopyState) (flag : Nat) : Option Int :=
  st.bindings.lookup flag

/-- The Copyfile wrapper's state (source line 133). -/
structure Copyfile where
  mState : CopyState
deriving DecidableEq

/-- Copyfile::set (source lines 137-140): forwards to
copyfile_state_set.  The state-set call always reports success here, so
the check never throws. -/
def Copyfile.set (cf : Copyfile) (flag : Nat) (value : Int) : Copyfile :=
  ⟨(copyfile_state_set cf.mState flag value).1⟩

/-- Copyfile::get as written in the source (lines 142-145): it forwards
to copyfile_state_set — not the state-get entry point — passing the
caller's out-pointer as the value to record.  The second component is
the value the call stores through the out-pointer: the set call stores
nothing through it. -/
def Copyfile.get (cf : Copyfile) (flag : Nat) (outPtr : Int) :
    Copyfile × Option Int :=
  (⟨(copyfile_state_set cf.mState flag outPtr).1⟩, none)

/-- Modelled from the spec: the intended getter (§4.4, §9) forwards to
the host facility's state-get entry point and writes the retrieved value
through the out-pointer, leaving the state untouched. -/
def Copyfile.getIntended (cf : Copyfile) (flag : Nat) :
    Copyfile × Option Int :=
  (cf, copyfile_state_get cf.mState flag)

/-! Helper lemmas -/

/-- Scanning the unrecognized-extension bag for an OID the library does
not recognize finds a match exactly when the full extension list
contains the OID: recognized extensions removed by the filter can never
match an unrecognized target. -/
theorem any_filter_unrecognized (cl : CL) (oid : Oid)
    (h : cl.recognized oid = false) (exts : List CSSM_X509_EXTENSION) :
    (exts.filter (fun ext => !cl.recognized ext.extnId)).any
        (fun ext => oid == ext.extnId)
      = exts.any (fun ext => oid == ext.extnId) := by
  induction exts with
  | nil => rfl
  | cons x xs ih =>
    by_cases hx : (oid == x.extnId) = true
    · have hxe : oid = x.extnId := eq_of_beq hx
      have hr : cl.recognized x.extnId = false := hxe ▸ h
      simp [List.filter_cons, List.any_cons, hr, hx]
    · have hx' : (oid == x.extnId) = false := by
        simpa using hx
      by_cases hr : cl.recognized x.extnId
      · simp [List.filter_cons, List.any_cons, hr, hx', ih]
      · simp [List.filter_cons, List.any_cons, hr, hx', ih]

/-- If the probed OID is unrecognized but present, the unrecognized bag
is nonempty, so the copy-all-fields query succeeds. -/
theorem bag_empty_no_match (cl : CL) (cert : Cert) (oid : Oid)
    (h : cl.recognized oid = false)
    (hemp : (unrecognizedExtensionValues cl cert).isEmpty = true) :
    hasExtensionWithOid cert oid = false := by
  have hany := any_filter_unrecognized cl oid h cert.extensions
  unfold unrecognizedExtensionValues at hemp
  rw [List.isEmpty_iff] at hemp
  rw [hemp] at hany
  unfold hasExtensionWithOid
  rw [← hany]
  rfl

/-- Feeding two byte runs to the incremental hasher feeds their
concatenation. -/
theorem SHA1.update_append (h : SHA1) (a b : List Byte) :
    (h.update a).update b = h.update (a ++ b) := by
  cases h
  simp [SHA1.update]

/-- A read request of one loop iteration is never for zero bytes. -/
theorem readSize_pos (limit : Nat) : 1 ≤ readSize limit := by
  unfold readSize
  split <;> omega

/-- With a nonzero limit in effect, the clamped read size never exceeds
the remaining limit. -/
theorem readSize_le (limit : Nat) (h : limit ≠ 0) : readSize limit ≤ limit := by
  unfold readSize
  split <;> omega

/-- Full characterization of the hashFileData loop: it consumes
consumedBytes from the current position, adds that count to the running
total, appends exactly the consumed bytes to the hasher, and leaves the
at-end indicator raised exactly when it stopped by reaching end-of-file
(no limit, or a limit larger than the remainder). -/
theorem hashFileDataLoop_run (fd : FileDesc) (hasher : SHA1) (limit total : Nat) :
    hashFileDataLoop fd hasher limit total
      = (total + consumedBytes fd limit,
         hasher.update ((fd.content.drop fd.pos).take (consumedBytes fd limit)),
         ⟨fd.content, fd.pos + consumedBytes fd limit,
          decide (limit = 0 ∨ fd.content.length - fd.pos < limit)⟩) := by
  induction fd, hasher, limit, total using hashFileDataLoop.induct with
  | case1 fd hasher limit total size fd' hEnd =>
    simp only [size, fd', FileDesc.read, FileDesc.atEnd, List.length_take,
      List.length_drop, beq_iff_eq] at hEnd
    have hrs := readSize_pos limit
    have hrem : fd.content.length - fd.pos = 0 := by omega
    have hc : consumedBytes fd limit = 0 := by
      unfold consumedBytes
      split <;> omega
    rw [hashFileDataLoop]
    simp only [FileDesc.read, FileDesc.atEnd, List.length_take, List.length_drop, hc]
    rw [dif_pos (by rw [beq_iff_eq]; omega)]
    have hdec : decide (limit = 0 ∨ fd.content.length - fd.pos < limit) = true := by
      rw [decide_eq_true_eq]
      omega
    cases hasher with
    | mk fed =>
      simp [SHA1.update, hdec]
      omega
  | case2 fd hasher limit total size buffer fd' got hEnd hBreak =>
    simp only [size, fd', buffer, got, FileDesc.read, FileDesc.atEnd,
      List.length_take, List.length_drop, beq_iff_eq] at hEnd hBreak
    obtain ⟨hl0, hlg⟩ := hBreak
    have hrs := readSize_pos limit
    have hrsle := readSize_le limit hl0
    have hlimrem : limit ≤ fd.content.length - fd.pos := by omega
    have hc : consumedBytes fd limit = limit := by
      unfold consumedBytes
      split <;> omega
    rw [hashFileDataLoop]
    simp only [FileDesc.read, FileDesc.atEnd, List.length_take, List.length_drop, hc]
    rw [dif_neg (by rw [beq_iff_eq]; omega)]
    rw [if_pos ⟨hl0, hlg⟩]
    have htake : (fd.content.drop fd.pos).take (readSize limit)
        = (fd.content.drop fd.pos).take limit := by
      rw [List.take_eq_take]
      simp only [List.length_drop]
      omega
    have hdec : decide (limit = 0 ∨ fd.content.length - fd.pos < limit) = false := by
      rw [decide_eq_false_iff_not]
      omega
    rw [htake, hdec]
    refine congrArg₂ Prod.mk ?_ (congrArg₂ Prod.mk rfl ?_)
    · omega
    · refine congrArg₂ (FileDesc.mk fd.content) ?_ ?_
      · omega
      · simp only [beq_eq_false_iff_ne]
        omega
  | case3 fd hasher limit total size buffer fd' got total' hEnd hasher' hBreak ih =>
    have hraw : ((fd.content.drop fd.pos).take (readSize limit)).length
        = min (readSize limit) (fd.content.length - fd.pos) := by
      simp [List.length_take, List.length_drop]
    simp only [size, fd', buffer, got, FileDesc.read, FileDesc.atEnd,
      List.length_take, List.length_drop, beq_iff_eq] at hEnd hBreak
    have hrs := readSize_pos limit
    rw [hashFileDataLoop]
    simp only [FileDesc.read, FileDesc.atEnd]
    rw [dif_neg (by simp only [beq_iff_eq, hraw]; omega)]
    rw [if_neg (by rw [hraw]; exact hBreak)]
    refine ih.trans ?_
    simp only [size, fd', buffer, got, total', hasher', FileDesc.read]
    simp only [hraw]
    set g := readSize limit ⊓ (fd.content.length - fd.pos) with hgdef
    have hgle : g ≤ fd.content.length - fd.pos := by omega
    have hglim : limit = 0 ∨ g < limit := by
      rcases Nat.eq_zero_or_pos limit with h | h
      · exact Or.inl h
      · right
        have := readSize_le limit (by omega)
        omega
    have hc' : consumedBytes ⟨fd.content, fd.pos + g, (g == 0)⟩ (limit - g)
        = consumedBytes fd limit - g := by
      unfold consumedBytes
      simp only
      split_ifs <;> omega
    have hcge : g ≤ consumedBytes fd limit := by
      unfold consumedBytes
      split_ifs <;> omega
    rw [hc']
    have htakebuf : (fd.content.drop fd.pos).take (readSize limit)
        = (fd.content.drop fd.pos).take g := by
      rw [List.take_eq_take]
      simp only [List.length_drop]
      omega
    have hdd : (fd.content.drop fd.pos).drop g = fd.content.drop (fd.pos + g) := by
      rw [List.drop_drop, Nat.add_comm]
    have hsplit : (fd.content.drop fd.pos).take g
          ++ (fd.content.drop (fd.pos + g)).take (consumedBytes fd limit - g)
        = (fd.content.drop fd.pos).take (consumedBytes fd limit) := by
      rw [← hdd]
      have hgC : g + (consumedBytes fd limit - g) = consumedBytes fd limit := by
        omega
      conv_rhs => rw [← hgC]
      rw [List.take_add]
    refine congrArg₂ Prod.mk ?_ (congrArg₂ Prod.mk ?_ ?_)
    · omega
    · rw [htakebuf, SHA1.update_append, hsplit]
    · refine congrArg₂ (FileDesc.mk fd.content) ?_ ?_
      · omega
      · rw [decide_eq_decide]
        omega

/-- One-step equation: when the read of an iteration raises the at-end
indicator, the loop breaks with the just-read bytes added to the total
and the hasher untouched. -/
theorem hashFileDataLoop_atEnd_break (fd fd2 : FileDesc) (hasher : SHA1)
    (limit total : Nat) (buffer : List Byte)
    (hread : fd.read (readSize limit) = (buffer, fd2))
    (hEnd : fd2.atEnd = true) :
    hashFileDataLoop fd hasher limit total
      = (total + buffer.length, hasher, fd2) := by
  have hb : buffer = (fd.read (readSize limit)).1 := by rw [hread]
  have hf : fd2 = (fd.read (readSize limit)).2 := by rw [hread]
  subst hb hf
  rw [hashFileDataLoop]
  simp only [hEnd, dite_true]

/-- One-step equation: when an iteration does not hit end-of-file and a
nonzero limit is exhausted by it, the loop breaks with the just-read
bytes added to the total AND appended to the hasher. -/
theorem hashFileDataLoop_limit_break (fd fd2 : FileDesc) (hasher : SHA1)
    (limit total : Nat) (buffer : List Byte)
    (hread : fd.read (readSize limit) = (buffer, fd2))
    (hEnd : fd2.atEnd = false)
    (hl0 : limit ≠ 0) (hexh : limit - buffer.length = 0) :
    hashFileDataLoop fd hasher limit total
      = (total + buffer.length, hasher.update buffer, fd2) := by
  have hb : buffer = (fd.read (readSize limit)).1 := by rw [hread]
  have hf : fd2 = (fd.read (readSize limit)).2 := by rw [hread]
  subst hb hf
  rw [hashFileDataLoop]
  simp only [hEnd]
  rw [dif_neg (by simp)]
  rw [if_pos ⟨hl0, hexh⟩]

/-! Claim theorems -/

/-- C1 counterexample: the probe's answer is NOT the same whether or not
the host certificate library recognizes the OID.  For a certificate
carrying no extensions, probing an absent OID that the library
recognizes produces a propagated no-field-values error, while probing
the same OID with a library that does not recognize it returns false. -/
theorem certificateHasField_recognition_dependent :
    certificateHasField ⟨fun o => o == [85]⟩ ⟨[48, 0], []⟩ [85]
      ≠ certificateHasField ⟨fun _ => false⟩ ⟨[48, 0], []⟩ [85] := by
  decide

/-- C1 (amended): certificateHasField returns true exactly when the
certificate carries an extension whose OID byte-equals the target; when
the host library does not recognize the OID the result is exactly the
presence boolean (the unrecognized-extension bag is scanned on the slow
path); but when the library recognizes the OID and no such extension is
present, the fast path's no-field-values error propagates instead of a
false answer. -/
theorem certificateHasField_presence (cl : CL) (cert : Cert) (oid : Oid) :
    (certificateHasField cl cert oid = ProbeResult.ok true
        ↔ hasExtensionWithOid cert oid = true) ∧
    (cl.recognized oid = false →
      certificateHasField cl cert oid
        = ProbeResult.ok (hasExtensionWithOid cert oid)) ∧
    (cl.recognized oid = true → hasExtensionWithOid cert oid = false →
      certificateHasField cl cert oid = ProbeResult.err OSStatus.noFieldValues) := by
  by_cases hrec : cl.recognized oid = true
  · by_cases hpres : hasExtensionWithOid cert oid = true
    · have hres : certificateHasField cl cert oid = ProbeResult.ok true := by
        unfold certificateHasField certificateHasFieldTrace
          SecCertificateCopyFirstFieldValue
        simp [hrec, hpres]
      refine ⟨?_, ?_, ?_⟩
      · simp [hres, hpres]
      · intro hf
        simp [hrec] at hf
      · intro _ hab
        simp [hpres] at hab
    · have hpres' : hasExtensionWithOid cert oid = false := by
        simpa using hpres
      have hres : certificateHasField cl cert oid
          = ProbeResult.err OSStatus.noFieldValues := by
        unfold certificateHasField certificateHasFieldTrace
          SecCertificateCopyFirstFieldValue
        simp [hrec, hpres']
      refine ⟨?_, ?_, ?_⟩
      · simp [hres, hpres']
      · intro hf
        simp [hrec] at hf
      · intro _ _
        exact hres
  · have hrec' : cl.recognized oid = false := by
      simpa using hrec
    have hres : certificateHasField cl cert oid
        = ProbeResult.ok (hasExtensionWithOid cert oid) := by
      unfold certificateHasField certificateHasFieldTrace
        SecCertificateCopyFirstFieldValue certificateHasFieldSlow
        SecCertificateCopyFieldValues
      simp only [hrec', if_false, Bool.false_eq_true]
      by_cases hemp : (unrecognizedExtensionValues cl cert).isEmpty = true
      · have := bag_empty_no_match cl cert oid hrec' hemp
        simp [hemp, this]
      · have hemp' : (unrecognizedExtensionValues cl cert).isEmpty = false := by
          simpa using hemp
        simp only [hemp', if_false, Bool.false_eq_true]
        unfold unrecognizedExtensionValues hasExtensionWithOid
        rw [any_filter_unrecognized cl oid hrec' cert.extensions]
    refine ⟨?_, fun _ => hres, ?_⟩
    · rw [hres]
      constructor
      · intro h1
        cases h2 : hasExtensionWithOid cert oid
        · rw [h2] at h1
          cases h1
        · rfl
      · intro h1
        rw [h1]
    · intro hf
      simp [hrec'] at hf

/-- C1 witness: a certificate carrying a single extension with an
OID the library does not recognize is reported present, and with a
library recognizing the (absent) OID the error propagates. -/
theorem certificateHasField_presence_witness :
    certificateHasField ⟨fun _ => false⟩ ⟨[48, 0], [⟨[85], [1]⟩]⟩ [85]
      = ProbeResult.ok true ∧
    certificateHasField ⟨fun o => o == [85]⟩ ⟨[48, 0], []⟩ [85]
      = ProbeResult.err OSStatus.noFieldValues :=
  ⟨(certificateHasField_presence ⟨fun _ => false⟩ ⟨[48, 0], [⟨[85], [1]⟩]⟩ [85]).2.1
      rfl,
   (certificateHasField_presence ⟨fun o => o == [85]⟩ ⟨[48, 0], []⟩ [85]).2.2
      (by decide) (by decide)⟩

/-- C4: hashOfCertificate feeds exactly the given DER bytes to a fresh
hasher — no canonicalization, re-encoding or wrapping — so the digest is
the digest function applied to exactly those bytes, of width 20 octets
whenever the host digest has width 20; and the certificate-handle form
produces the digest of the handle's DER body. -/
theorem hashOfCertificate_spec (digestFn : List Byte → List Byte)
    (bytes : List Byte) (cert : Cert) :
    hashOfCertificate digestFn bytes = digestFn bytes ∧
    hashOfCertificateRef digestFn cert = hashOfCertificate digestFn cert.derBody ∧
    ((∀ b, (digestFn b).length = 20) →
      (hashOfCertificate digestFn bytes).length = 20) := by
  refine ⟨?_, rfl, ?_⟩
  · simp [hashOfCertificate, SHA1.init, SHA1.update, SHA1.finish]
  · intro h20
    simp [hashOfCertificate, SHA1.init, SHA1.update, SHA1.finish, h20]

/-- C4 witness: with a concrete width-20 digest function, the digest of
the 3-byte DER snippet has 20 octets. -/
theorem hashOfCertificate_spec_witness :
    (hashOfCertificate (fun _ => List.replicate 20 0) [48, 0, 0]).length = 20 :=
  (hashOfCertificate_spec (fun _ => List.replicate 20 0) [48, 0, 0]
      ⟨[48, 0, 0], []⟩).2.2 (fun _ => by simp)

/-- C5: on the fast path, success releases the borrowed first-field
value and answers true; the unknown-tag sentinel falls through to the
slow path; and any other status from the fast path propagates to the
caller carrying the status code verbatim. -/
theorem certificateHasField_fastPath_cases (cl : CL) (cert : Cert) (oid : Oid) :
    (SecCertificateCopyFirstFieldValue cl cert oid = OSStatus.noErr →
      certificateHasFieldTrace cl cert oid
        = (ProbeResult.ok true, [HostEvent.releaseFirstFieldValue])) ∧
    (SecCertificateCopyFirstFieldValue cl cert oid = OSStatus.unknownTag →
      certificateHasFieldTrace cl cert oid = certificateHasFieldSlow cl cert oid) ∧
    (∀ rc, SecCertificateCopyFirstFieldValue cl cert oid = rc →
      rc ≠ OSStatus.noErr → rc ≠ OSStatus.unknownTag →
      certificateHasField cl cert oid = ProbeResult.err rc) := by
  refine ⟨?_, ?_, ?_⟩
  · intro h
    unfold certificateHasFieldTrace
    rw [h]
  · intro h
    unfold certificateHasFieldTrace
    rw [h]
  · intro rc h h1 h2
    unfold certificateHasField certificateHasFieldTrace
    rw [h]
    cases rc with
    | noErr => exact absurd rfl h1
    | unknownTag => exact absurd rfl h2
    | noFieldValues => rfl

/-- C5 witness: the three fast-path outcomes at concrete inputs. -/
theorem certificateHasField_fastPath_cases_witness :
    certificateHasFieldTrace ⟨fun o => o == [85]⟩ ⟨[48, 0], [⟨[85], [1]⟩]⟩ [85]
      = (ProbeResult.ok true, [HostEvent.releaseFirstFieldValue]) ∧
    certificateHasFieldTrace ⟨fun _ => false⟩ ⟨[48, 0], []⟩ [85]
      = certificateHasFieldSlow ⟨fun _ => false⟩ ⟨[48, 0], []⟩ [85] ∧
    certificateHasField ⟨fun o => o == [85]⟩ ⟨[48, 0], []⟩ [85]
      = ProbeResult.err OSStatus.noFieldValues :=
  ⟨(certificateHasField_fastPath_cases ⟨fun o => o == [85]⟩
      ⟨[48, 0], [⟨[85], [1]⟩]⟩ [85]).1 (by decide),
   (certificateHasField_fastPath_cases ⟨fun _ => false⟩ ⟨[48, 0], []⟩ [85]).2.1
      (by decide),
   (certificateHasField_fastPath_cases ⟨fun o => o == [85]⟩ ⟨[48, 0], []⟩
      [85]).2.2 OSStatus.noFieldValues (by decide) (by decide) (by decide)⟩

/-- C6: on the slow path, a failed copy-all-unrecognized query makes the
probe return false, not an error. -/
theorem certificateHasField_slowPath_queryFails (cl : CL) (cert : Cert) (oid : Oid)
    (hfast : SecCertificateCopyFirstFieldValue cl cert oid = OSStatus.unknownTag)
    (hvals : SecCertificateCopyFieldValues cl cert = none) :
    certificateHasField cl cert oid = ProbeResult.ok false := by
  unfold certificateHasField certificateHasFieldTrace certificateHasFieldSlow
  rw [hfast, hvals]

/-- C6 witness: a certificate with no extensions probed for an OID the
library does not recognize: the bag query fails and the probe answers
false. -/
theorem certificateHasField_slowPath_queryFails_witness :
    certificateHasField ⟨fun _ => false⟩ ⟨[48, 0], []⟩ [1, 2]
      = ProbeResult.ok false :=
  certificateHasField_slowPath_queryFails ⟨fun _ => false⟩ ⟨[48, 0], []⟩ [1, 2]
    (by decide) (by decide)

/-- C7: whenever the slow path's copy-all-fields query succeeds, the
borrowed array is released before the probe returns, on the match-found
path and the no-match path alike (the release trace is the same whatever
the scan finds). -/
theorem certificateHasField_slowPath_release (cl : CL) (cert : Cert) (oid : Oid)
    (values : List CSSM_X509_EXTENSION)
    (hfast : SecCertificateCopyFirstFieldValue cl cert oid = OSStatus.unknownTag)
    (hvals : SecCertificateCopyFieldValues cl cert = some values) :
    (certificateHasFieldTrace cl cert oid).2 = [HostEvent.releaseFieldValues] := by
  unfold certificateHasFieldTrace certificateHasFieldSlow
  rw [hfast, hvals]

/-- C7 witness: the release happens both when the scan finds the OID and
when it does not. -/
theorem certificateHasField_slowPath_release_witness :
    (certificateHasFieldTrace ⟨fun _ => false⟩ ⟨[48, 0], [⟨[85], [1]⟩]⟩ [85]).2
      = [HostEvent.releaseFieldValues] ∧
    (certificateHasFieldTrace ⟨fun _ => false⟩ ⟨[48, 0], [⟨[85], [1]⟩]⟩ [7]).2
      = [HostEvent.releaseFieldValues] :=
  ⟨certificateHasField_slowPath_release ⟨fun _ => false⟩ ⟨[48, 0], [⟨[85], [1]⟩]⟩
      [85] [⟨[85], [1]⟩] (by decide) (by decide),
   certificateHasField_slowPath_release ⟨fun _ => false⟩ ⟨[48, 0], [⟨[85], [1]⟩]⟩
      [7] [⟨[85], [1]⟩] (by decide) (by decide)⟩

/-- C9: the claim's round-trip fails on the source.  Copyfile::get as
written forwards to copyfile_state_set, so after set(1, 42) a call
get(1, out) stores nothing through the out-pointer and instead records
the out-pointer value under the flag; the spec-intended getter, wired to
the state-get entry point, does return 42. -/
theorem copyfile_get_forwards_to_set :
    (Copyfile.get (Copyfile.set ⟨⟨[]⟩⟩ 1 42) 1 99).2 = none ∧
    (Copyfile.get (Copyfile.set ⟨⟨[]⟩⟩ 1 42) 1 99).1.mState.bindings
      = [(1, 99), (1, 42)] ∧
    (Copyfile.getIntended (Copyfile.set ⟨⟨[]⟩⟩ 1 42) 1).2 = some 42 :=
  ⟨rfl, rfl, rfl⟩

/-- C2: in the hashFileData loop the end-of-file check happens before
the just-read bytes are fed to the hasher: on the terminating (EOF)
iteration the bytes of that iteration are counted in the returned total
but are NOT appended to the caller's hash state, which is returned
exactly as it was at the start of that iteration. -/
theorem hashFileData_eof_iteration (fd fd2 : FileDesc) (hasher : SHA1)
    (limit total : Nat) (buffer : List Byte)
    (hread : fd.read (readSize limit) = (buffer, fd2))
    (hEnd : fd2.atEnd = true) :
    hashFileDataLoop fd hasher limit total
      = (total + buffer.length, hasher, fd2) :=
  hashFileDataLoop_atEnd_break fd fd2 hasher limit total buffer hread hEnd

/-- C2 witness: a descriptor sitting at end-of-file with a nonzero
running total: the terminating read's bytes (none) are counted and the
hash state is returned untouched. -/
theorem hashFileData_eof_iteration_witness :
    hashFileDataLoop ⟨[7, 8], 2, false⟩ ⟨[9]⟩ 0 5 = (5, ⟨[9]⟩, ⟨[7, 8], 2, true⟩) :=
  hashFileData_eof_iteration ⟨[7, 8], 2, false⟩ ⟨[7, 8], 2, true⟩ ⟨[9]⟩ 0 5 []
    (by decide) rfl

/-- C3: called at position 0 with limit L, hashFileData returns
min(len(F), L) bytes (L = 0 meaning no limit, hence len(F)) and the
descriptor position has advanced by exactly the returned number of
bytes. -/
theorem hashFileData_returns_min (content : List Byte) (hasher : SHA1)
    (limit : Nat) :
    (hashFileData ⟨content, 0, false⟩ hasher limit).1
        = (if limit = 0 then content.length else min content.length limit) ∧
    (hashFileData ⟨content, 0, false⟩ hasher limit).2.2.pos
        = (hashFileData ⟨content, 0, false⟩ hasher limit).1 := by
  unfold hashFileData
  rw [hashFileDataLoop_run]
  unfold consumedBytes
  simp

/-- C8: a descriptor already at end-of-file: hashFileData returns zero
and the caller's hash state is returned completely unchanged (no append
is performed). -/
theorem hashFileData_already_at_eof (fd : FileDesc) (hasher : SHA1) (limit : Nat)
    (h : fd.content.length ≤ fd.pos) :
    hashFileData fd hasher limit = (0, hasher, ⟨fd.content, fd.pos, true⟩) := by
  unfold hashFileData
  have hread : fd.read (readSize limit) = ([], ⟨fd.content, fd.pos, true⟩) := by
    unfold FileDesc.read
    simp only [List.drop_eq_nil_of_le h, List.take_nil, List.length_nil,
      Nat.add_zero]
    rfl
  have hstep := hashFileDataLoop_atEnd_break fd ⟨fd.content, fd.pos, true⟩ hasher
    limit 0 [] hread rfl
  simpa using hstep

/-- C8 witness: a two-byte file with the cursor at its end, probed with
a nonzero limit: zero returned, hash state untouched. -/
theorem hashFileData_already_at_eof_witness :
    hashFileData ⟨[1, 2], 2, false⟩ ⟨[3]⟩ 7 = (0, ⟨[3]⟩, ⟨[1, 2], 2, true⟩) :=
  hashFileData_already_at_eof ⟨[1, 2], 2, false⟩ ⟨[3]⟩ 7 (by decide)

/-- C10: when the loop terminates because a positive limit is exhausted
before end-of-file, the bytes of the final iteration ARE appended to the
hash state before the break; consequently, for a positive limit no
larger than the file (a run that terminates by limit exhaustion, with
the at-end indicator still clear), every byte counted in the returned
total has been appended to the hash state — unlike the EOF-terminated
break, which skips the append. -/
theorem hashFileData_limit_iteration :
    (∀ (fd fd2 : FileDesc) (hasher : SHA1) (limit total : Nat)
        (buffer : List Byte),
      fd.read (readSize limit) = (buffer, fd2) → fd2.atEnd = false →
      limit ≠ 0 → limit - buffer.length = 0 →
      hashFileDataLoop fd hasher limit total
        = (total + buffer.length, hasher.update buffer, fd2)) ∧
    (∀ (content : List Byte) (hasher : SHA1) (limit : Nat),
      limit ≠ 0 → limit ≤ content.length →
      (hashFileData ⟨content, 0, false⟩ hasher limit).2.2.mAtEnd = false ∧
      (hashFileData ⟨content, 0, false⟩ hasher limit).2.1
        = hasher.update
            (content.take (hashFileData ⟨content, 0, false⟩ hasher limit).1)) := by
  constructor
  · exact hashFileDataLoop_limit_break
  · intro content hasher limit hl0 hle
    unfold hashFileData
    rw [hashFileDataLoop_run]
    refine ⟨?_, ?_⟩
    · simp only [decide_eq_false_iff_not]
      omega
    · simp

/-- C10 witness: a 3-byte file with limit 2: the loop breaks on limit
exhaustion with the final buffer hashed, and the whole returned total is
in the hash state. -/
theorem hashFileData_limit_iteration_witness :
    hashFileDataLoop ⟨[10, 20, 30], 0, false⟩ ⟨[]⟩ 2 0
      = (2, ⟨[10, 20]⟩, ⟨[10, 20, 30], 2, false⟩) ∧
    ((hashFileData ⟨[10, 20, 30], 0, false⟩ ⟨[]⟩ 2).2.2.mAtEnd = false ∧
     (hashFileData ⟨[10, 20, 30], 0, false⟩ ⟨[]⟩ 2).2.1
       = SHA1.update ⟨[]⟩
           ([10, 20, 30].take (hashFileData ⟨[10, 20, 30], 0, false⟩ ⟨[]⟩ 2).1)) :=
  ⟨hashFileData_limit_iteration.1 ⟨[10, 20, 30], 0, false⟩ ⟨[10, 20, 30], 2, false⟩
      ⟨[]⟩ 2 0 [10, 20] (by decide) rfl (by decide) (by decide),
   hashFileData_limit_iteration.2 [10, 20, 30] ⟨[]⟩ 2 (by decide) (by decide)⟩

end CodeSigning

end Security
